import Mathlib

/-!
Shallow embedding of the core logic of `src/app.py`, a YouTube trend/channel
analysis application: ISO-8601 duration parsing, defensive integer coercion,
per-video metric derivation, performance-weighted keyword extraction, the
channel grading heuristic, and the JSON-backed channel history store.

Numbers are modelled exactly: Python integers as `Nat`/`Int` and the
real-valued formulas (ages, ratios, scores) as `ℚ`.  Timestamps are
instants measured in seconds.
-/

namespace YTApp

/-! ### Duration parsing (`parse_iso_duration`) -/

/-- Decimal digit character test (the regex class `\d` over ASCII). -/
def isDigitChar (c : Char) : Bool := ('0' ≤ c) && (c ≤ '9')

/-- Numeric value of a most-significant-first digit run (`int(...)` on the
captured regex group). -/
def digitsVal (ds : List Char) : Nat := ds.foldl (fun a c => 10 * a + (c.toNat - 48)) 0

/-- Split a maximal leading run of decimal digits off a character list
(the greedy `\d+` step of the duration regex). -/
def takeDigits : List Char → List Char × List Char
  | [] => ([], [])
  | c :: cs =>
    if isDigitChar c then
      let p := takeDigits cs
      (c :: p.1, p.2)
    else ([], c :: cs)

/-- One optional regex group `(?:(\d+)U)?` of the duration pattern: it
consumes a nonempty digit run immediately followed by the unit letter `u`,
and otherwise consumes nothing and captures nothing. -/
def parsePart (cs : List Char) (u : Char) : Option Nat × List Char :=
  let p := takeDigits cs
  match p.1, p.2 with
  | [], _ => (none, cs)
  | _ :: _, [] => (none, cs)
  | d :: ds, c :: r => if c = u then (some (digitsVal (d :: ds)), r) else (none, cs)

/-- Translation of `parse_iso_duration`: `re.match` anchors the pattern
`PT(?:(\d+)H)?(?:(\d+)M)?(?:(\d+)S)?` at the start of the token, a missing
group contributes 0, and a failed match yields 0.  The source's early
`return 0` for an empty token is the `[]` case of the match. -/
def parse_iso_duration (s : String) : Nat :=
  match s.toList with
  | [] => 0
  | 'P' :: 'T' :: rest =>
    let ph := parsePart rest 'H'
    let pm := parsePart ph.2 'M'
    let ps := parsePart pm.2 'S'
    (ph.1.getD 0) * 3600 + (pm.1.getD 0) * 60 + ps.1.getD 0
  | _ => 0

/-- Decimal digit character of a single digit value. -/
def digitChar10 (d : Nat) : Char := Char.ofNat (48 + d)

/-- Decimal representation of a number, most significant digit first. -/
def natRep (n : Nat) : List Char :=
  if n = 0 then ['0'] else (Nat.digits 10 n).reverse.map digitChar10

/-- One optional duration component: digits directly followed by the unit
letter, or nothing at all. -/
def durPart (u : Char) : Option Nat → List Char
  | none => []
  | some n => natRep n ++ [u]

/-- A duration token `PT[h]H[m]M[s]S` with any subset of the three parts
present: the input grammar of the duration claim. -/
def durToken (oh om os : Option Nat) : String :=
  String.mk ('P' :: 'T' :: (durPart 'H' oh ++ (durPart 'M' om ++ durPart 'S' os)))

/-! ### Defensive integer coercion (`safe_int`) -/

/-- Whitespace stripped by `int(str)` (modelled over ASCII). -/
def isPySpace (c : Char) : Bool :=
  c = ' ' || c = '\t' || c = '\n' || c = '\r' || c = '\x0b' || c = '\x0c'

/-- Leading and trailing whitespace removal performed by `int(str)`. -/
def stripPySpaces (cs : List Char) : List Char :=
  ((cs.dropWhile isPySpace).reverse.dropWhile isPySpace).reverse

/-- Remaining characters of a Python integer literal after its first digit:
decimal digits with single underscores allowed between digits; any other
shape is a `ValueError` (`none`). -/
def udigitsAux : Nat → List Char → Option Nat
  | acc, [] => some acc
  | acc, '_' :: c :: cs =>
    if isDigitChar c then udigitsAux (10 * acc + (c.toNat - 48)) cs else none
  | _, ['_'] => none
  | acc, c :: cs =>
    if isDigitChar c then udigitsAux (10 * acc + (c.toNat - 48)) cs else none

/-- Unsigned part of a Python integer literal: a nonempty digit run. -/
def pyDigits : List Char → Option Int
  | [] => none
  | c :: rest =>
    if isDigitChar c then (udigitsAux (c.toNat - 48) rest).map (fun n => (n : Int)) else none

/-- Stripped body of a Python integer literal: an optional single sign
directly followed by the digits. -/
def pyIntCore : List Char → Option Int
  | [] => none
  | c :: rest =>
    if c = '+' then pyDigits rest
    else if c = '-' then (pyDigits rest).map (fun n => -n)
    else pyDigits (c :: rest)

/-- Python `int(x)` on a string: optional surrounding whitespace, an optional
sign, then a nonempty digit run.  `none` models the raised `ValueError`. -/
def pythonIntOfString (s : String) : Option Int :=
  pyIntCore (stripPySpaces s.toList)

/-- Translation of `safe_int`: `int(x)` with every failure mapped to 0.  The
raw statistics fields it is applied to are either strings or absent
(`None`, which makes `int` raise a `TypeError`). -/
def safe_int : Option String → Int
  | none => 0
  | some s => (pythonIntOfString s).getD 0

/-! ### Metric derivation (`fetch_videos_by_keyword` / `fetch_channel_recent_videos`) -/

/-- Row-level `df["days_since_publish"] = (now - df["published_at"]).dt.total_seconds() / (3600 * 24)`;
instants are in seconds. -/
def days_since_publish (now pub : ℚ) : ℚ := (now - pub) / (3600 * 24)

/-- Row-level `df["days_since_publish"].replace(0, 0.1)`: only a value equal
to exactly 0 is replaced by 0.1; every other value is kept unchanged. -/
def replace_zero_age (d : ℚ) : ℚ := if d = 0 then 0.1 else d

/-- Row-level `df["views_per_day"] = df["views"] / df["days_since_publish"]`,
applied after the `replace(0, 0.1)` step; identical in both fetch
pipelines. -/
def views_per_day (views : Nat) (now pub : ℚ) : ℚ :=
  (views : ℚ) / replace_zero_age (days_since_publish now pub)

/-! ### Weighted keyword extraction (`extract_keywords_with_weight`) -/

/-- ASCII lowercasing of `str.lower()`; the character classes kept by the
tokenizer (Latin letters after lowercasing, digits, Hangul syllables) are
unaffected by the full Unicode mapping. -/
def asciiLower (c : Char) : Char :=
  if ('A' ≤ c) && (c ≤ 'Z') then Char.ofNat (c.toNat + 32) else c

/-- Membership in the tokenizer's character class `[가-힣a-zA-Z0-9]`. -/
def isKeywordChar (c : Char) : Bool :=
  (('가' ≤ c) && (c ≤ '힣')) || (('a' ≤ c) && (c ≤ 'z')) ||
    (('A' ≤ c) && (c ≤ 'Z')) || (('0' ≤ c) && (c ≤ '9'))

/-- Accumulator loop of `re.findall(r"[가-힣a-zA-Z0-9]+", title)`: the maximal
runs of keyword characters, in order.  The first argument is the reversed
current run. -/
def runsAux : List Char → List Char → List String
  | acc, [] => if acc.isEmpty then [] else [String.mk acc.reverse]
  | acc, c :: cs =>
    if isKeywordChar c then runsAux (c :: acc) cs
    else if acc.isEmpty then runsAux [] cs
    else String.mk acc.reverse :: runsAux [] cs

/-- The stopword set literal of `extract_keywords_with_weight` (the source
lists "asmr" twice; membership is unaffected). -/
def stopwords : List String :=
  [ "영상", "official", "video", "the", "and", "for", "with", "full", "ver",
    "episode", "ep", "live", "tv", "show", "channel", "shorts", "공식",
    "하이라이트", "클립", "무대", "최신", "today", "day", "in", "of", "a",
    "이번주", "다시보기", "모음", "총정리", "최고", "오늘", "지금", "바로",
    "story", "log", "vlog", "asmr", "asmr", "tip", "꿀팁", "방법", "하는법",
    "저장", "구독", "좋아요", "댓글", "알림", "설정", "하나", "두개" ]

/-- Surviving tokens of one title: tokenize the lowercased title and keep the
tokens of length at least 2 that are not stopwords. -/
def video_tokens (title : String) : List String :=
  (runsAux [] (title.toList.map asciiLower)).filter
    (fun t => decide (2 ≤ t.length) && !(stopwords.contains t))

/-- State of the `Counter`: keys in first-insertion order together with the
running score of every token (an unseen token scores 0, as missing
`Counter` keys do). -/
structure KwCounter where
  keys : List String
  score : String → ℚ

/-- Empty `Counter()`. -/
def KwCounter.empty : KwCounter := ⟨[], fun _ => 0⟩

/-- One `keyword_scores[t] += weight` step. -/
def KwCounter.incr (c : KwCounter) (t : String) (x : ℚ) : KwCounter :=
  ⟨if t ∈ c.keys then c.keys else c.keys ++ [t],
   fun u => if u = t then c.score u + x else c.score u⟩

/-- Materialized `Counter` items, in insertion order (Python dicts preserve
it). -/
def KwCounter.items (c : KwCounter) : List (String × ℚ) :=
  c.keys.map (fun k => (k, c.score k))

/-- The double loop of `extract_keywords_with_weight`: for every row of the
frame, add the row's weight to the score of every surviving token of its
title.  The source's weight is `views ** 0.5`; the square-root weighting is
kept abstract as a function `w` of the view count so that the aggregation
can be studied exactly. -/
def keyword_scores (w : Nat → ℚ) (rows : List (String × Nat)) : KwCounter :=
  rows.foldl (fun c r => (video_tokens r.1).foldl (fun c' t => c'.incr t (w r.2)) c)
    KwCounter.empty

/-- First-seen accumulation of one token into a key list (how a Python dict
collects its keys). -/
def seenInsert (acc : List String) (t : String) : List String :=
  if t ∈ acc then acc else acc ++ [t]

/-- Every surviving token of every row, in processing order. -/
def all_tokens (rows : List (String × Nat)) : List String :=
  (rows.map (fun r => video_tokens r.1)).flatten

/-- Tokens in order of first appearance. -/
def firstOccurrences (ts : List String) : List String := ts.foldl seenInsert []

/-- Stable insertion of one scored token into a score-descending list: the
new item goes in front of the first strictly smaller score, after existing
equal scores. -/
def insertDesc (a : String × ℚ) : List (String × ℚ) → List (String × ℚ)
  | [] => [a]
  | b :: l => if b.2 ≤ a.2 then a :: b :: l else b :: insertDesc a l

/-- Stable score-descending sort, processing items from the left as
`sorted(items, key=count, reverse=True)` does via a stable sort. -/
def sortDesc : List (String × ℚ) → List (String × ℚ)
  | [] => []
  | a :: l => insertDesc a (sortDesc l)

/-- `Counter.most_common(top_n)`: all items sorted by score descending
(stably, hence ties stay in first-insertion order), truncated to `top_n`. -/
def most_common (c : KwCounter) (top_n : Nat) : List (String × ℚ) :=
  (sortDesc c.items).take top_n

/-- Round-half-to-even on ℚ, the rounding of `Series.round(0)`. -/
def roundHalfEven (q : ℚ) : Int :=
  let f := ⌊q⌋
  let r := q - f
  if r < 1/2 then f else if 1/2 < r then f + 1 else if f % 2 = 0 then f else f + 1

/-- Full `extract_keywords_with_weight` output: the ranked table, with
scores rounded to integers at the very end
(`data["score"].round(0).astype(int)` happens after the ranking). -/
def extract_keywords_with_weight (w : Nat → ℚ) (rows : List (String × Nat))
    (top_n : Nat) : List (String × Int) :=
  (most_common (keyword_scores w rows) top_n).map (fun p => (p.1, roundHalfEven p.2))

/-! ### Channel grading (`assign_channel_grade`) -/

/-- The distinguished ungraded result `"등급 외"`. -/
def grade_out : String := "등급 외"

/-- Size score from subscriber thresholds (`rank_sub`); a Python int. -/
def rank_sub (sub_count : Nat) : Nat :=
  if 100000 ≤ sub_count then 3 else if 10000 ≤ sub_count then 2 else 1

/-- Mean of the recent frame's `views_per_day` column
(`recent_df['views_per_day'].mean()`). -/
def avg_daily_views (vpd : List ℚ) : ℚ := vpd.sum / vpd.length

/-- Normalized daily-view ratio `avg_daily_views / sub_count * 1000`, with
the source's guard returning 0 for zero subscribers. -/
def daily_ratio (sub_count : Nat) (vpd : List ℚ) : ℚ :=
  if 0 < sub_count then avg_daily_views vpd / sub_count * 1000 else 0

/-- Activity score from the daily ratio (`rank_activity`); a Python int. -/
def rank_activity (sub_count : Nat) (vpd : List ℚ) : Nat :=
  if 10 ≤ daily_ratio sub_count vpd then 3
  else if 3 ≤ daily_ratio sub_count vpd then 2 else 1

/-- Exact rational value of the IEEE-754 double written `2.6` in the
source. -/
def dbl26 : ℚ := 5854679515581645 / 2251799813685248

/-- Exact rational value of the IEEE-754 double written `1.8` in the
source. -/
def dbl18 : ℚ := 8106479329266893 / 4503599627370496

/-- Exact rational value of the IEEE-754 double that
`rank_sub * 0.4 + rank_activity * 0.6` evaluates to in the source's float
arithmetic, tabulated over the nine rank pairs the grading code can produce
(both ranks always lie in {1, 2, 3}).  Notably the (2, 3) cell rounds to
2.5999999999999996, one unit in the last place below the double `2.6`,
while exact arithmetic would give 2.6. -/
def final_score_float : Nat → Nat → ℚ
  | 1, 1 => 1
  | 1, 2 => 3602879701896397 / 2251799813685248
  | 1, 3 => 4953959590107545 / 2251799813685248
  | 2, 1 => 3152519739159347 / 2251799813685248
  | 2, 2 => 2
  | 2, 3 => 1463669878895411 / 562949953421312
  | 3, 1 => 4053239664633447 / 2251799813685248
  | 3, 2 => 1351079888211149 / 562949953421312
  | 3, 3 => 3
  | _, _ => 0

/-- Weighted sum `rank_sub * 0.4 + rank_activity * 0.6` as the source's
double-precision float arithmetic computes it. -/
def final_score (sub_count : Nat) (vpd : List ℚ) : ℚ :=
  final_score_float (rank_sub sub_count) (rank_activity sub_count vpd)

/-- Letter from the weighted sum's fixed cutoffs; the source compares
doubles, so the cutoffs are the exact rationals of the doubles `2.6` and
`1.8`. -/
def grade_char (sub_count : Nat) (vpd : List ℚ) : Char :=
  if dbl26 ≤ final_score sub_count vpd then 'A'
  else if dbl18 ≤ final_score sub_count vpd then 'B' else 'C'

/-- Trailing digit: `grade_num = 1` by default, then the if/elif ladder over
subscriber count and the daily ratio. -/
def grade_num (sub_count : Nat) (vpd : List ℚ) : Nat :=
  if sub_count < 10000 then 3
  else if sub_count < 50000 ∧ daily_ratio sub_count vpd < 5 then 2
  else if 100000 ≤ sub_count ∧ 10 ≤ daily_ratio sub_count vpd then 1
  else 1

/-- Translation of `assign_channel_grade`: the ungraded marker for an empty
recent frame or zero subscribers, otherwise the two-character grade
`f"{grade_char}{grade_num}"`. -/
def assign_channel_grade (sub_count : Nat) (vpd : List ℚ) : String :=
  if vpd = [] ∨ sub_count = 0 then grade_out
  else String.mk [grade_char sub_count vpd, Char.ofNat (48 + grade_num sub_count vpd)]

/-! ### Channel history store -/

/-- One persisted channel summary, the row built by `get_channel_summary_row`. -/
structure ChannelHistoryEntry where
  channel_id : String
  title : String
  subscriber_count : Nat
  total_views : Nat
  video_count : Nat
  analysis_date : String
  recent_video_count : Nat
  recent_avg_views : Int
  recent_avg_daily_views : Int
  videos_last_30d : Nat
  grade : String
deriving DecidableEq

/-- The in-memory history document: a Python dict from channel id to entry,
keys in insertion order. -/
abbrev HistoryData := List (String × ChannelHistoryEntry)

/-- Python dict assignment `history_data[channel_id] = summary_data`: an
existing key keeps its position with its value replaced whole; a new key is
appended.  Dict keys are unique, so at most one binding matches. -/
def dictInsert : HistoryData → String → ChannelHistoryEntry → HistoryData
  | [], k, e => [(k, e)]
  | p :: h, k, e => if p.1 = k then (k, e) :: h else p :: dictInsert h k e

/-- Dict lookup `history_data[channel_id]`. -/
def dictLookup : HistoryData → String → Option ChannelHistoryEntry
  | [], _ => none
  | p :: h, k => if p.1 = k then some p.2 else dictLookup h k

/-- The page's `list(history_data.values())`. -/
def list_all (h : HistoryData) : List ChannelHistoryEntry := h.map Prod.snd

/-- State of the backing `channel_history.json` file: missing, present but
unreadable or not valid JSON, or holding a serialized document. -/
inductive HistoryFile
  | absent
  | corrupt (raw : String)
  | stored (data : HistoryData)

/-- Translation of `save_channel_history`: the whole document is serialized
over the file (a write failure only surfaces a notification; the successful
write is modelled). -/
def save_channel_history (data : HistoryData) : HistoryFile := .stored data

/-- Translation of `load_channel_history`: a missing file (the
`os.path.exists` guard) and any exception from `open`/`json.load` both
yield the empty dict. -/
def load_channel_history : HistoryFile → HistoryData
  | .absent => []
  | .corrupt _ => []
  | .stored d => d

/-- The clear-all button of `page_channel_history`:
`save_channel_history({})`. -/
def clear_all : HistoryFile := save_channel_history []

/-- The save flow of `page_single_channel`: read the store, assign the new
summary under the channel id, rewrite the whole document. -/
def upsert_channel (f : HistoryFile) (k : String) (e : ChannelHistoryEntry) : HistoryFile :=
  save_channel_history (dictInsert (load_channel_history f) k e)

/-! ## Theorems -/

/-! ### C1: views-per-day derivation -/

/-- Claim C1 is false as stated: the pipeline does not floor-clamp
`age_days` to a minimum of 0.1.  `df.replace(0, 0.1)` replaces only a value
equal to exactly 0, so a video published 4320 seconds (= 0.05 days) before
`now` with 100 views gets `views_per_day = 100 / 0.05 = 2000`, while the
claimed formula `views / max(age_days, 0.1)` gives 1000. -/
theorem C1_counterexample :
    views_per_day 100 4320 0 = 2000 ∧
    (100 : ℚ) / max (days_since_publish 4320 0) 0.1 = 1000 ∧
    ¬ views_per_day 100 4320 0 = (100 : ℚ) / max (days_since_publish 4320 0) 0.1 := by
  refine ⟨?_, ?_, ?_⟩ <;>
    norm_num [views_per_day, days_since_publish, replace_zero_age, max_def]

/-- Claim C1 (amended): for a publish instant ≤ now, `age_days` is never
negative; `views_per_day` equals `views / age_days` except that an age of
exactly 0 is replaced by 0.1 before dividing; the divisor is always
positive, so `views_per_day` is finite and non-negative. -/
theorem C1_amended (views : Nat) (now pub : ℚ) (h : pub ≤ now) :
    0 ≤ days_since_publish now pub ∧
    0 < replace_zero_age (days_since_publish now pub) ∧
    0 ≤ views_per_day views now pub ∧
    (days_since_publish now pub = 0 → views_per_day views now pub = (views : ℚ) / 0.1) ∧
    (days_since_publish now pub ≠ 0 →
      views_per_day views now pub = (views : ℚ) / days_since_publish now pub) := by
  have h0 : 0 ≤ days_since_publish now pub :=
    div_nonneg (sub_nonneg.mpr h) (by norm_num)
  have hpos : 0 < replace_zero_age (days_since_publish now pub) := by
    unfold replace_zero_age
    split
    · norm_num
    · next hne => exact lt_of_le_of_ne h0 (Ne.symm hne)
  refine ⟨h0, hpos, div_nonneg (Nat.cast_nonneg views) hpos.le, ?_, ?_⟩
  · intro hz
    unfold views_per_day replace_zero_age
    rw [if_pos hz]
  · intro hz
    unfold views_per_day replace_zero_age
    rw [if_neg hz]

/-- Witness for `C1_amended` at views = 100, now = 4320 s, pub = 0 s. -/
theorem C1_amended_witness :
    (0 : ℚ) ≤ 4320 ∧
    (0 ≤ days_since_publish 4320 0 ∧
     0 < replace_zero_age (days_since_publish 4320 0) ∧
     0 ≤ views_per_day 100 4320 0 ∧
     (days_since_publish 4320 0 = 0 → views_per_day 100 4320 0 = ((100 : Nat) : ℚ) / 0.1) ∧
     (days_since_publish 4320 0 ≠ 0 →
       views_per_day 100 4320 0 = ((100 : Nat) : ℚ) / days_since_publish 4320 0)) :=
  ⟨by norm_num, C1_amended 100 4320 0 (by norm_num)⟩

/-! ### C4: history upsert is last-write-wins -/

/-- Auxiliary for C4: inserting the same binding twice is the same as
inserting it once. -/
theorem dictInsert_idem (h : HistoryData) (k : String) (e : ChannelHistoryEntry) :
    dictInsert (dictInsert h k e) k e = dictInsert h k e := by
  induction h with
  | nil => simp [dictInsert]
  | cons p t ih =>
    by_cases hk : p.1 = k
    · simp [dictInsert, hk]
    · simp [dictInsert, hk, ih]

/-- Auxiliary for C4: looking the key up after an upsert returns exactly the
new entry. -/
theorem dictLookup_insert (h : HistoryData) (k : String) (e : ChannelHistoryEntry) :
    dictLookup (dictInsert h k e) k = some e := by
  induction h with
  | nil => simp [dictInsert, dictLookup]
  | cons p t ih =>
    by_cases hk : p.1 = k
    · simp [dictInsert, dictLookup, hk]
    · simp [dictInsert, dictLookup, hk, ih]

/-- Concrete history entry for channel "X" carrying grade "B2". -/
def entryX_B2 : ChannelHistoryEntry :=
  { channel_id := "X", title := "Channel X", subscriber_count := 20000,
    total_views := 1000000, video_count := 120, analysis_date := "2025-01-01 10:00",
    recent_video_count := 10, recent_avg_views := 5000, recent_avg_daily_views := 150,
    videos_last_30d := 4, grade := "B2" }

/-- Concrete history entry for channel "X" carrying grade "A1", sharing no
field value with `entryX_B2` besides the channel id. -/
def entryX_A1 : ChannelHistoryEntry :=
  { channel_id := "X", title := "Channel X renamed", subscriber_count := 150000,
    total_views := 9000000, video_count := 300, analysis_date := "2025-02-01 11:30",
    recent_video_count := 12, recent_avg_views := 80000, recent_avg_daily_views := 2600,
    videos_last_30d := 7, grade := "A1" }

/-- Claim C4: the history upsert is last-write-wins per channel key.
Upserting the same entry twice leaves the store unchanged after the second
call; an upsert fully replaces whatever entry the key held before; and in
the concrete scenario (save "X" with grade "B2", then "X" with grade "A1"
through the page's load-assign-save flow) the resulting document holds
exactly one entry for "X", the "A1" one. -/
theorem C4_upsert_last_write_wins :
    (∀ (h : HistoryData) (k : String) (e : ChannelHistoryEntry),
        dictInsert (dictInsert h k e) k e = dictInsert h k e) ∧
    (∀ (h : HistoryData) (k : String) (e : ChannelHistoryEntry),
        dictLookup (dictInsert h k e) k = some e) ∧
    (list_all (load_channel_history
        (upsert_channel (upsert_channel .absent ("X") entryX_B2) ("X") entryX_A1))
      = [entryX_A1] ∧
     ((load_channel_history
        (upsert_channel (upsert_channel .absent ("X") entryX_B2) ("X") entryX_A1)).filter
        (fun p => p.1 == "X")).length = 1 ∧
     entryX_A1.grade = "A1") :=
  ⟨dictInsert_idem, dictLookup_insert, by decide, by decide, rfl⟩

/-! ### C8: history store degradation and clearing -/

/-- Claim C8: reading the history store from a missing file yields the
empty store, reading a corrupt file yields the empty store (the exception
is swallowed), reading after a clear-all yields the empty collection, and
an upsert after a clear-all behaves exactly as on a freshly created
(absent) store. -/
theorem C8_history_resilience :
    load_channel_history .absent = [] ∧
    (∀ raw, load_channel_history (.corrupt raw) = []) ∧
    list_all (load_channel_history clear_all) = [] ∧
    (∀ k e, upsert_channel clear_all k e = upsert_channel .absent k e) :=
  ⟨rfl, fun _ => rfl, rfl, fun _ _ => rfl⟩

/-! ### C9: the ungraded marker -/

/-- Auxiliary for C9: a graded channel never yields the ungraded marker
(the computed grade is a two-character string, the marker has four). -/
theorem assign_grade_ne_out (subs : Nat) (vpd : List ℚ) (h : ¬(vpd = [] ∨ subs = 0)) :
    assign_channel_grade subs vpd ≠ grade_out := by
  unfold assign_channel_grade
  rw [if_neg h]
  intro hc
  have h2 : (String.mk [grade_char subs vpd, Char.ofNat (48 + grade_num subs vpd)]).length = 2 := rfl
  rw [hc] at h2
  exact absurd h2 (by decide)

/-- Claim C9: `assign_channel_grade` returns the distinguished ungraded
result exactly when the subscriber count is zero or the recent-video
collection is empty. -/
theorem C9_ungraded_iff (subs : Nat) (vpd : List ℚ) :
    assign_channel_grade subs vpd = grade_out ↔ subs = 0 ∨ vpd = [] := by
  by_cases h : vpd = [] ∨ subs = 0
  · constructor
    · intro _
      tauto
    · intro _
      unfold assign_channel_grade
      rw [if_pos h]
  · constructor
    · intro hc
      exact absurd hc (assign_grade_ne_out subs vpd h)
    · intro hc
      tauto

/-! ### C3: grade letter ladder -/

/-- Auxiliary for C3: daily ratio of the scenario channel. -/
theorem daily_ratio_scenario : daily_ratio 5000 [ 200 ] = 40 := by
  norm_num [daily_ratio, avg_daily_views]

/-- Auxiliary for C3: the float weighted sum of the scenario channel,
2.1999999999999997, one unit in the last place below 2.2. -/
theorem final_score_scenario :
    final_score 5000 [ 200 ] = 4953959590107545 / 2251799813685248 := by
  have hs : rank_sub 5000 = 1 := by norm_num [rank_sub]
  have ha : rank_activity 5000 [ 200 ] = 3 := by
    simp only [rank_activity, daily_ratio_scenario]
    norm_num
  rw [final_score, hs, ha]
  norm_num [final_score_float]

/-- Auxiliary for C3: full grade of the scenario channel. -/
theorem grade_scenario : assign_channel_grade 5000 [ 200 ] = "B3" := by
  have hc : grade_char 5000 [ 200 ] = 'B' := by
    simp only [grade_char, final_score_scenario]
    norm_num [dbl26, dbl18]
  have hn : grade_num 5000 [ 200 ] = 3 := by norm_num [grade_num]
  rw [assign_channel_grade, if_neg (by simp), hc, hn]

/-- Auxiliary for C3: over the nine rank pairs, the float ladder letter
agrees with the exact-arithmetic ladder except on the (2, 3) cell, where
the float sum falls below the double `2.6` and yields 'B'. -/
theorem float_letter_table (rs ra : Nat)
    (hrs : rs = 1 ∨ rs = 2 ∨ rs = 3) (hra : ra = 1 ∨ ra = 2 ∨ ra = 3) :
    (if dbl26 ≤ final_score_float rs ra then 'A'
     else if dbl18 ≤ final_score_float rs ra then 'B' else 'C') =
      (if rs = 2 ∧ ra = 3 then 'B'
       else if (2.6 : ℚ) ≤ (rs : ℚ) * 0.4 + (ra : ℚ) * 0.6 then 'A'
       else if (1.8 : ℚ) ≤ (rs : ℚ) * 0.4 + (ra : ℚ) * 0.6 then 'B' else 'C') := by
  rcases hrs with rfl | rfl | rfl <;> rcases hra with rfl | rfl | rfl <;>
    norm_num [final_score_float, dbl26, dbl18]

/-- Auxiliary for C3: the grade letter as the exact-arithmetic ladder with
the single float-forced exception carved out. -/
theorem grade_char_eq_ladder (subs : Nat) (vpd : List ℚ) :
    grade_char subs vpd =
      (if rank_sub subs = 2 ∧ rank_activity subs vpd = 3 then 'B'
       else if (2.6 : ℚ) ≤ (rank_sub subs : ℚ) * 0.4 + (rank_activity subs vpd : ℚ) * 0.6 then 'A'
       else if (1.8 : ℚ) ≤ (rank_sub subs : ℚ) * 0.4 + (rank_activity subs vpd : ℚ) * 0.6 then 'B'
       else 'C') := by
  have hrs : rank_sub subs = 1 ∨ rank_sub subs = 2 ∨ rank_sub subs = 3 := by
    unfold rank_sub
    split_ifs <;> simp
  have hra : rank_activity subs vpd = 1 ∨ rank_activity subs vpd = 2 ∨
      rank_activity subs vpd = 3 := by
    unfold rank_activity
    split_ifs <;> simp
  unfold grade_char final_score
  exact float_letter_table _ _ hrs hra

/-- Claim C3 is false as stated: the source computes the weighted sum in
double-precision floats, and on the cell size = 2, activity = 3 the float
sum `2*0.4 + 3*0.6` evaluates to 2.5999999999999996, strictly below 2.6,
so the program grades B where the claimed exact ladder (sum 2.6 >= 2.6)
grades A.  Concretely, 10,000 subscribers with mean views-per-day 200 has
daily ratio 20, claimed letter A, actual grade "B1". -/
theorem C3_counterexample :
    (if 100000 ≤ (10000 : Nat) then (3 : ℚ) else if 10000 ≤ (10000 : Nat) then 2 else 1) = 2 ∧
    daily_ratio 10000 [ 200 ] = 20 ∧
    (if (10 : ℚ) ≤ 20 then (3 : ℚ) else if (3 : ℚ) ≤ 20 then 2 else 1) = 3 ∧
    (2 : ℚ) * 0.4 + 3 * 0.6 = 2.6 ∧
    (if (2.6 : ℚ) ≤ 2 * 0.4 + 3 * 0.6 then 'A'
     else if (1.8 : ℚ) ≤ 2 * 0.4 + 3 * 0.6 then 'B' else 'C') = 'A' ∧
    final_score 10000 [ 200 ] = 1463669878895411 / 562949953421312 ∧
    final_score 10000 [ 200 ] < 2.6 ∧
    assign_channel_grade 10000 [ 200 ] = "B1" ∧
    ('B' : Char) ≠ 'A' := by
  have hr : daily_ratio 10000 [ 200 ] = 20 := by
    norm_num [daily_ratio, avg_daily_views]
  have hfs : final_score 10000 [ 200 ] = 1463669878895411 / 562949953421312 := by
    have hs : rank_sub 10000 = 2 := by norm_num [rank_sub]
    have ha : rank_activity 10000 [ 200 ] = 3 := by
      simp only [rank_activity, hr]
      norm_num
    rw [final_score, hs, ha]
    norm_num [final_score_float]
  have hgr : assign_channel_grade 10000 [ 200 ] = "B1" := by
    have hc : grade_char 10000 [ 200 ] = 'B' := by
      simp only [grade_char, hfs]
      norm_num [dbl26, dbl18]
    have hn : grade_num 10000 [ 200 ] = 1 := by
      simp only [grade_num, hr]
      norm_num
    rw [assign_channel_grade, if_neg (by simp), hc, hn]
  refine ⟨by norm_num, hr, by norm_num, by norm_num, by norm_num, hfs, ?_, hgr, by decide⟩
  rw [hfs]
  norm_num

/-- Claim C3 (amended): for a graded channel the grade letter follows the
claimed ladder — size score from subscriber thresholds, activity score from
`mean(views_per_day) / subscribers * 1000`, weighted sum
`size*0.4 + activity*0.6`, cutoffs 2.6/1.8 — as evaluated by the source's
double-precision float arithmetic.  This coincides with the exact ladder
except on the single cell 10,000 ≤ subscribers < 100,000 with daily ratio
≥ 10, where the float sum `2*0.4 + 3*0.6 = 2.5999999999999996` falls below
2.6 and the letter is B rather than A.  The scenario with 5000 subscribers
and mean views-per-day 200 has daily ratio 40, float weighted sum
2.1999999999999997 (within 3/11258999068426240 of 2.2), and grade letter B
(full grade "B3"). -/
theorem C3_grade_letter_amended (subs : Nat) (vpd : List ℚ) (h1 : 0 < subs) (h2 : vpd ≠ []) :
    (¬ (10000 ≤ subs ∧ subs < 100000 ∧ 10 ≤ vpd.sum / (vpd.length : ℚ) / (subs : ℚ) * 1000) →
      ∃ d : Char,
        assign_channel_grade subs vpd =
          String.mk
            [ (if 2.6 ≤ (if 100000 ≤ subs then (3 : ℚ) else if 10000 ≤ subs then 2 else 1) * 0.4 +
                  (if 10 ≤ vpd.sum / (vpd.length : ℚ) / (subs : ℚ) * 1000 then (3 : ℚ)
                   else if 3 ≤ vpd.sum / (vpd.length : ℚ) / (subs : ℚ) * 1000 then 2 else 1) * 0.6
               then 'A'
               else if 1.8 ≤ (if 100000 ≤ subs then (3 : ℚ) else if 10000 ≤ subs then 2 else 1) * 0.4 +
                  (if 10 ≤ vpd.sum / (vpd.length : ℚ) / (subs : ℚ) * 1000 then (3 : ℚ)
                   else if 3 ≤ vpd.sum / (vpd.length : ℚ) / (subs : ℚ) * 1000 then 2 else 1) * 0.6
               then 'B' else 'C'), d ]) ∧
    (10000 ≤ subs → subs < 100000 → 10 ≤ vpd.sum / (vpd.length : ℚ) / (subs : ℚ) * 1000 →
      ∃ d : Char, assign_channel_grade subs vpd = String.mk ['B', d]) ∧
    daily_ratio 5000 [ 200 ] = 40 ∧
    1.8 ≤ final_score 5000 [ 200 ] ∧ final_score 5000 [ 200 ] < 2.6 ∧
    2.2 - final_score 5000 [ 200 ] = 3 / 11258999068426240 ∧
    assign_channel_grade 5000 [ 200 ] = "B3" := by
  have hR : daily_ratio subs vpd = vpd.sum / (vpd.length : ℚ) / (subs : ℚ) * 1000 := by
    unfold daily_ratio avg_daily_views
    rw [if_pos h1]
  have hsize : (if 100000 ≤ subs then (3 : ℚ) else if 10000 ≤ subs then 2 else 1) =
      (rank_sub subs : ℚ) := by
    unfold rank_sub
    split_ifs <;> norm_num
  have hact : (if 10 ≤ vpd.sum / (vpd.length : ℚ) / (subs : ℚ) * 1000 then (3 : ℚ)
      else if 3 ≤ vpd.sum / (vpd.length : ℚ) / (subs : ℚ) * 1000 then 2 else 1) =
      (rank_activity subs vpd : ℚ) := by
    unfold rank_activity
    rw [hR]
    split_ifs <;> norm_num
  have hrs2 : rank_sub subs = 2 ↔ (10000 ≤ subs ∧ subs < 100000) := by
    unfold rank_sub
    split_ifs <;> omega
  have hra3 : rank_activity subs vpd = 3 ↔ 10 ≤ daily_ratio subs vpd := by
    unfold rank_activity
    split_ifs with hA hB
    · simp [hA]
    · simp [hA]
    · simp [hA]
  refine ⟨?_, ?_, daily_ratio_scenario, ?_, ?_, ?_, grade_scenario⟩
  · intro hnc
    refine ⟨Char.ofNat (48 + grade_num subs vpd), ?_⟩
    have hno23 : ¬ (rank_sub subs = 2 ∧ rank_activity subs vpd = 3) := by
      rintro ⟨hs2, ha3⟩
      exact hnc ⟨(hrs2.mp hs2).1, (hrs2.mp hs2).2, hR ▸ (hra3.mp ha3)⟩
    have hletter : grade_char subs vpd =
        (if 2.6 ≤ (if 100000 ≤ subs then (3 : ℚ) else if 10000 ≤ subs then 2 else 1) * 0.4 +
              (if 10 ≤ vpd.sum / (vpd.length : ℚ) / (subs : ℚ) * 1000 then (3 : ℚ)
               else if 3 ≤ vpd.sum / (vpd.length : ℚ) / (subs : ℚ) * 1000 then 2 else 1) * 0.6
           then 'A'
           else if 1.8 ≤ (if 100000 ≤ subs then (3 : ℚ) else if 10000 ≤ subs then 2 else 1) * 0.4 +
              (if 10 ≤ vpd.sum / (vpd.length : ℚ) / (subs : ℚ) * 1000 then (3 : ℚ)
               else if 3 ≤ vpd.sum / (vpd.length : ℚ) / (subs : ℚ) * 1000 then 2 else 1) * 0.6
           then 'B' else 'C') := by
      rw [grade_char_eq_ladder, if_neg hno23, hsize, hact]
    unfold assign_channel_grade
    rw [if_neg (by push_neg; exact ⟨h2, by omega⟩), hletter]
  · intro hs1 hs2 hrge
    refine ⟨Char.ofNat (48 + grade_num subs vpd), ?_⟩
    have h23 : rank_sub subs = 2 ∧ rank_activity subs vpd = 3 :=
      ⟨hrs2.mpr ⟨hs1, hs2⟩, hra3.mpr (by rw [hR]; exact hrge)⟩
    unfold assign_channel_grade
    rw [if_neg (by push_neg; exact ⟨h2, by omega⟩), grade_char_eq_ladder, if_pos h23]
  · rw [final_score_scenario]
    norm_num [dbl18]
  · rw [final_score_scenario]
    norm_num
  · rw [final_score_scenario]
    norm_num

/-- Witness for `C3_grade_letter_amended` at the scenario input (5000
subscribers, one recent video with views-per-day 200). -/
theorem C3_grade_letter_amended_witness :
    0 < 5000 ∧ ([ (200 : ℚ) ] ≠ []) ∧
    ((¬ (10000 ≤ 5000 ∧ 5000 < 100000 ∧
          10 ≤ [ (200 : ℚ) ].sum / (([ (200 : ℚ) ].length : ℚ)) / ((5000 : Nat) : ℚ) * 1000) →
      ∃ d : Char,
        assign_channel_grade 5000 [ (200 : ℚ) ] =
          String.mk
            [ (if 2.6 ≤ (if 100000 ≤ 5000 then (3 : ℚ) else if 10000 ≤ 5000 then 2 else 1) * 0.4 +
                  (if 10 ≤ [ (200 : ℚ) ].sum / (([ (200 : ℚ) ].length : ℚ)) / ((5000 : Nat) : ℚ) * 1000 then (3 : ℚ)
                   else if 3 ≤ [ (200 : ℚ) ].sum / (([ (200 : ℚ) ].length : ℚ)) / ((5000 : Nat) : ℚ) * 1000 then 2 else 1) * 0.6
               then 'A'
               else if 1.8 ≤ (if 100000 ≤ 5000 then (3 : ℚ) else if 10000 ≤ 5000 then 2 else 1) * 0.4 +
                  (if 10 ≤ [ (200 : ℚ) ].sum / (([ (200 : ℚ) ].length : ℚ)) / ((5000 : Nat) : ℚ) * 1000 then (3 : ℚ)
                   else if 3 ≤ [ (200 : ℚ) ].sum / (([ (200 : ℚ) ].length : ℚ)) / ((5000 : Nat) : ℚ) * 1000 then 2 else 1) * 0.6
               then 'B' else 'C'), d ]) ∧
     (10000 ≤ 5000 → 5000 < 100000 →
        10 ≤ [ (200 : ℚ) ].sum / (([ (200 : ℚ) ].length : ℚ)) / ((5000 : Nat) : ℚ) * 1000 →
        ∃ d : Char, assign_channel_grade 5000 [ (200 : ℚ) ] = String.mk ['B', d]) ∧
     daily_ratio 5000 [ 200 ] = 40 ∧
     1.8 ≤ final_score 5000 [ 200 ] ∧ final_score 5000 [ 200 ] < 2.6 ∧
     2.2 - final_score 5000 [ 200 ] = 3 / 11258999068426240 ∧
     assign_channel_grade 5000 [ 200 ] = "B3") :=
  ⟨by norm_num, by simp, C3_grade_letter_amended 5000 [ 200 ] (by norm_num) (by simp)⟩

/-! ### C10: trailing digit defaults to 1 -/

/-- Auxiliary for C10: the digit is 1 whenever no branch of the digit
ladder fires. -/
theorem grade_num_default (subs : Nat) (vpd : List ℚ)
    (ha : ¬ subs < 10000) (hb : ¬ (subs < 50000 ∧ daily_ratio subs vpd < 5))
    (hc : ¬ (100000 ≤ subs ∧ 10 ≤ daily_ratio subs vpd)) :
    grade_num subs vpd = 1 := by
  unfold grade_num
  rw [if_neg ha, if_neg hb, if_neg hc]

/-- Claim C10: the trailing digit of the grade defaults to 1 when no branch
of the digit ladder matches; in particular every graded channel with
50,000 ≤ subscribers < 100,000 gets digit 1 regardless of the daily ratio,
and a graded channel with ≥ 100,000 subscribers and daily ratio < 10 also
gets digit 1. -/
theorem C10_digit_default (subs : Nat) (vpd : List ℚ) (h1 : 0 < subs) (h2 : vpd ≠ []) :
    (¬ subs < 10000 → ¬ (subs < 50000 ∧ daily_ratio subs vpd < 5) →
        ¬ (100000 ≤ subs ∧ 10 ≤ daily_ratio subs vpd) → grade_num subs vpd = 1) ∧
    (50000 ≤ subs → subs < 100000 →
        ∃ c, assign_channel_grade subs vpd = String.mk [c, '1']) ∧
    (100000 ≤ subs → daily_ratio subs vpd < 10 →
        ∃ c, assign_channel_grade subs vpd = String.mk [c, '1']) := by
  have hgrade : ∀ hn : grade_num subs vpd = 1,
      assign_channel_grade subs vpd = String.mk [grade_char subs vpd, '1'] := by
    intro hn
    unfold assign_channel_grade
    rw [if_neg (by push_neg; exact ⟨h2, by omega⟩), hn]
  refine ⟨grade_num_default subs vpd, ?_, ?_⟩
  · intro hlo hhi
    exact ⟨grade_char subs vpd,
      hgrade (grade_num_default subs vpd (by omega) (by intro hx; omega) (by intro hx; omega))⟩
  · intro hhi hr
    exact ⟨grade_char subs vpd,
      hgrade (grade_num_default subs vpd (by omega) (by intro hx; omega)
        (by intro hx; exact absurd hx.2 (not_le.mpr hr)))⟩

/-- Witness for `C10_digit_default` at 50,000 subscribers and one recent
video with views-per-day 0. -/
theorem C10_digit_default_witness :
    0 < 50000 ∧ ([ (0 : ℚ) ] ≠ []) ∧
    ((¬ 50000 < 10000 → ¬ (50000 < 50000 ∧ daily_ratio 50000 [ (0 : ℚ) ] < 5) →
        ¬ (100000 ≤ 50000 ∧ 10 ≤ daily_ratio 50000 [ (0 : ℚ) ]) →
        grade_num 50000 [ (0 : ℚ) ] = 1) ∧
     (50000 ≤ 50000 → 50000 < 100000 →
        ∃ c, assign_channel_grade 50000 [ (0 : ℚ) ] = String.mk [c, '1']) ∧
     (100000 ≤ 50000 → daily_ratio 50000 [ (0 : ℚ) ] < 10 →
        ∃ c, assign_channel_grade 50000 [ (0 : ℚ) ] = String.mk [c, '1'])) :=
  ⟨by norm_num, by simp, C10_digit_default 50000 [ 0 ] (by norm_num) (by simp)⟩

/-! ### C7: defensive integer coercion -/

/-- Claim C7 is false as stated: the coercion can produce a negative
integer.  `int("-5")` succeeds with −5, so a raw count of "-5" projects to
the negative view count −5. -/
theorem C7_counterexample :
    safe_int (some ("-5")) = -5 ∧ safe_int (some ("-5")) < 0 := by
  constructor <;> decide

/-- Auxiliary for C7: dropping a prefix keeps membership. -/
theorem dropWhile_subset_chars (p : Char → Bool) (l : List Char) :
    l.dropWhile p ⊆ l := by
  induction l with
  | nil => simp
  | cons a t ih =>
    rw [List.dropWhile_cons]
    split
    · exact fun c hc => List.mem_cons_of_mem a (ih hc)
    · exact fun c hc => hc

/-- Auxiliary for C7: stripping whitespace keeps membership. -/
theorem stripPySpaces_subset (cs : List Char) : stripPySpaces cs ⊆ cs := by
  intro c hc
  unfold stripPySpaces at hc
  have h1 := dropWhile_subset_chars isPySpace _ (List.mem_reverse.mp hc)
  exact dropWhile_subset_chars isPySpace cs (List.mem_reverse.mp h1)

/-- Auxiliary for C7: the unsigned digit parser never produces a negative
value. -/
theorem pyDigits_nonneg (cs : List Char) : 0 ≤ (pyDigits cs).getD 0 := by
  cases cs with
  | nil => simp [pyDigits]
  | cons c rest =>
    simp only [pyDigits]
    split
    · cases h : udigitsAux (c.toNat - 48) rest with
      | none => simp
      | some n => simp
    · simp

/-- Auxiliary for C7: the coercion of a string containing no minus sign is
non-negative. -/
theorem safe_int_nonneg_of_no_minus (s : String) (h : ('-') ∉ s.toList) :
    0 ≤ safe_int (some s) := by
  have h2 : ('-') ∉ stripPySpaces s.toList := fun hc => h (stripPySpaces_subset _ hc)
  show 0 ≤ (pyIntCore (stripPySpaces s.toList)).getD 0
  cases hcs : stripPySpaces s.toList with
  | nil => simp [pyIntCore]
  | cons c rest =>
    rw [hcs] at h2
    simp only [pyIntCore]
    split
    · exact pyDigits_nonneg rest
    · split
      · next hminus =>
        rw [hminus] at h2
        exact absurd (List.mem_cons_self _ _) h2
      · exact pyDigits_nonneg (c :: rest)

/-- Claim C7 (amended): the coercion is total — a missing value or any
string `int()` cannot parse yields 0 — and the projected count is
non-negative whenever the raw value contains no minus sign (every count
string the platform returns is a plain digit string); a raw value that
parses to a negative integer, however, is projected as that negative
integer. -/
theorem C7_amended :
    safe_int none = 0 ∧
    (∀ s : String, pythonIntOfString s = none → safe_int (some s) = 0) ∧
    (∀ s : String, ('-') ∉ s.toList → 0 ≤ safe_int (some s)) :=
  ⟨rfl, fun s hs => by simp [safe_int, hs], safe_int_nonneg_of_no_minus⟩

/-- Witness for `C7_amended` on the unparseable string "abc" and the digit
string "1234567". -/
theorem C7_amended_witness :
    (pythonIntOfString ("abc") = none ∧ safe_int (some ("abc")) = 0) ∧
    (('-') ∉ ("1234567" : String).toList ∧ 0 ≤ safe_int (some ("1234567"))) :=
  ⟨⟨by decide, C7_amended.2.1 ("abc") (by decide)⟩,
   ⟨by decide, C7_amended.2.2 ("1234567") (by decide)⟩⟩

/-! ### C6: ranking is unique-keyed, score-descending and stable -/

/-- Auxiliary: stable insertion permutes. -/
theorem insertDesc_perm (a : String × ℚ) (l : List (String × ℚ)) :
    List.Perm (insertDesc a l) (a :: l) := by
  induction l with
  | nil => rfl
  | cons b t ih =>
    unfold insertDesc
    split
    · rfl
    · exact (ih.cons b).trans (List.Perm.swap a b t)

/-- Auxiliary: stable insertion preserves the score-descending order. -/
theorem insertDesc_sorted (a : String × ℚ) (l : List (String × ℚ))
    (h : l.Pairwise (fun x y => y.2 ≤ x.2)) :
    (insertDesc a l).Pairwise (fun x y => y.2 ≤ x.2) := by
  induction l with
  | nil => simp [insertDesc]
  | cons b t ih =>
    unfold insertDesc
    split
    · next hba =>
      refine List.Pairwise.cons ?_ h
      intro x hx
      rcases List.mem_cons.mp hx with rfl | hx
      · exact hba
      · exact le_trans (List.rel_of_pairwise_cons h hx) hba
    · next hba =>
      push_neg at hba
      refine List.Pairwise.cons ?_ (ih (List.Pairwise.of_cons h))
      intro x hx
      rcases List.mem_cons.mp ((insertDesc_perm a t).mem_iff.mp hx) with rfl | hx
      · exact le_of_lt hba
      · exact List.rel_of_pairwise_cons h hx

/-- Auxiliary: the stable sort permutes. -/
theorem sortDesc_perm (l : List (String × ℚ)) : List.Perm (sortDesc l) l := by
  induction l with
  | nil => rfl
  | cons a t ih => exact (insertDesc_perm a (sortDesc t)).trans (ih.cons a)

/-- Auxiliary: the stable sort sorts by score descending. -/
theorem sortDesc_sorted (l : List (String × ℚ)) :
    (sortDesc l).Pairwise (fun x y => y.2 ≤ x.2) := by
  induction l with
  | nil => simp [sortDesc]
  | cons a t ih => exact insertDesc_sorted a _ ih

/-- Auxiliary: inserting touches no equal-score entry's relative position —
the filter at any fixed score gains `a` at the front exactly when `a` has
that score (every entry it jumps over is strictly larger). -/
theorem insertDesc_filter (a : String × ℚ) (l : List (String × ℚ)) (q : ℚ) :
    (insertDesc a l).filter (fun p => decide (p.2 = q)) =
      if a.2 = q then a :: l.filter (fun p => decide (p.2 = q))
      else l.filter (fun p => decide (p.2 = q)) := by
  induction l with
  | nil =>
    by_cases hq : a.2 = q <;> simp [insertDesc, List.filter, hq]
  | cons b t ih =>
    unfold insertDesc
    split
    · next hba =>
      by_cases hq : a.2 = q <;> simp [List.filter_cons, hq]
    · next hba =>
      push_neg at hba
      by_cases hbq : b.2 = q
      · have haq : ¬ a.2 = q := by
          intro haq
          rw [haq, ← hbq] at hba
          exact lt_irrefl _ hba
        simp [List.filter_cons, hbq, haq, ih]
      · by_cases hq : a.2 = q <;> simp [List.filter_cons, hbq, hq, ih]

/-- Auxiliary: the stable sort keeps each score class in its original
order. -/
theorem sortDesc_filter (l : List (String × ℚ)) (q : ℚ) :
    (sortDesc l).filter (fun p => decide (p.2 = q)) =
      l.filter (fun p => decide (p.2 = q)) := by
  induction l with
  | nil => rfl
  | cons a t ih =>
    show (insertDesc a (sortDesc t)).filter _ = _
    rw [insertDesc_filter]
    by_cases hq : a.2 = q <;> simp [List.filter_cons, hq, ih]

/-- Auxiliary: one counter increment keeps the key list duplicate-free. -/
theorem incr_keys_nodup (c : KwCounter) (t : String) (x : ℚ) (h : c.keys.Nodup) :
    ((c.incr t x)).keys.Nodup := by
  unfold KwCounter.incr
  dsimp only
  split
  · exact h
  · next ht => simp [List.nodup_append, h, ht]

/-- Auxiliary: a whole title's worth of increments keeps the key list
duplicate-free. -/
theorem foldl_incr_keys_nodup (ts : List String) (x : ℚ) :
    ∀ c : KwCounter, c.keys.Nodup → ((ts.foldl (fun c' t => c'.incr t x) c)).keys.Nodup := by
  induction ts with
  | nil => exact fun c h => h
  | cons t ts ih => exact fun c h => ih _ (incr_keys_nodup c t x h)

/-- Auxiliary: the aggregated counter's key list is duplicate-free. -/
theorem keyword_scores_keys_nodup (w : Nat → ℚ) (rows : List (String × Nat)) :
    (keyword_scores w rows).keys.Nodup := by
  suffices hgen : ∀ c : KwCounter, c.keys.Nodup →
      ((rows.foldl (fun c r => (video_tokens r.1).foldl (fun c' t => c'.incr t (w r.2)) c) c)).keys.Nodup by
    exact hgen KwCounter.empty List.nodup_nil
  induction rows with
  | nil => exact fun c h => h
  | cons r rows ih => exact fun c h => ih _ (foldl_incr_keys_nodup _ _ c h)

/-- Auxiliary: one increment collects the key exactly as first-seen
insertion does. -/
theorem incr_keys_eq (c : KwCounter) (t : String) (x : ℚ) :
    ((c.incr t x)).keys = seenInsert c.keys t := rfl

/-- Auxiliary: a token list's increments collect keys by first-seen
insertion. -/
theorem foldl_incr_keys_eq (ts : List String) (x : ℚ) :
    ∀ c : KwCounter, ((ts.foldl (fun c' t => c'.incr t x) c)).keys = ts.foldl seenInsert c.keys := by
  induction ts with
  | nil => exact fun _ => rfl
  | cons t ts ih =>
    intro c
    rw [List.foldl_cons, List.foldl_cons, ih, incr_keys_eq]

/-- Auxiliary: the counter's keys are exactly the surviving tokens in order
of first appearance. -/
theorem keyword_scores_keys_eq (w : Nat → ℚ) (rows : List (String × Nat)) :
    (keyword_scores w rows).keys = firstOccurrences (all_tokens rows) := by
  suffices hgen : ∀ c : KwCounter,
      ((rows.foldl (fun c r => (video_tokens r.1).foldl (fun c' t => c'.incr t (w r.2)) c) c)).keys =
        ((rows.map (fun r => video_tokens r.1)).flatten).foldl seenInsert c.keys by
    exact hgen KwCounter.empty
  induction rows with
  | nil => exact fun _ => rfl
  | cons r rows ih =>
    intro c
    rw [List.foldl_cons, ih, List.map_cons, List.flatten_cons, List.foldl_append,
      foldl_incr_keys_eq]

/-- Auxiliary: the item list's tokens are the counter's keys. -/
theorem items_map_fst (c : KwCounter) : (c.items).map Prod.fst = c.keys := by
  unfold KwCounter.items
  rw [List.map_map]
  exact List.map_id _

/-- Claim C6: the ranked output has at most `n` entries and at most one
entry per distinct token; it is the prefix of the stably sorted item list,
which is a permutation of the aggregated items, ordered by cumulative
score descending, with every score class kept in first-seen order (the
counter's key order is exactly order of first appearance). -/
theorem C6_ranking (w : Nat → ℚ) (rows : List (String × Nat)) (n : Nat) :
    (most_common (keyword_scores w rows) n).length ≤ n ∧
    ((most_common (keyword_scores w rows) n).map Prod.fst).Nodup ∧
    (most_common (keyword_scores w rows) n).Pairwise (fun x y => y.2 ≤ x.2) ∧
    most_common (keyword_scores w rows) n =
      (sortDesc ((keyword_scores w rows).items)).take n ∧
    List.Perm (sortDesc ((keyword_scores w rows).items)) ((keyword_scores w rows).items) ∧
    (∀ q : ℚ,
      (sortDesc ((keyword_scores w rows).items)).filter (fun p => decide (p.2 = q)) =
        ((keyword_scores w rows).items).filter (fun p => decide (p.2 = q))) ∧
    (keyword_scores w rows).keys = firstOccurrences (all_tokens rows) := by
  have hnodup : ((sortDesc ((keyword_scores w rows).items)).map Prod.fst).Nodup := by
    have hperm : List.Perm ((sortDesc ((keyword_scores w rows).items)).map Prod.fst)
        (((keyword_scores w rows).items).map Prod.fst) :=
      (sortDesc_perm _).map Prod.fst
    rw [hperm.nodup_iff, items_map_fst]
    exact keyword_scores_keys_nodup w rows
  refine ⟨?_, ?_, ?_, rfl, sortDesc_perm _, sortDesc_filter _, keyword_scores_keys_eq w rows⟩
  · exact List.length_take_le n _
  · unfold most_common
    rw [List.map_take]
    exact hnodup.sublist (List.take_sublist n _)
  · exact (sortDesc_sorted _).sublist (List.take_sublist n _)

/-! ### C2: performance-weighted keyword scoring -/

/-- Auxiliary: one increment's effect on any token's score. -/
theorem score_incr (c : KwCounter) (t u : String) (x : ℚ) :
    ((c.incr t x)).score u = c.score u + if u = t then x else 0 := by
  unfold KwCounter.incr
  dsimp only
  split
  · rfl
  · rw [add_zero]

/-- Auxiliary: a whole title's worth of increments adds (number of
occurrences of the token) × (row weight) to the token's score. -/
theorem score_foldl (ts : List String) (x : ℚ) (u : String) :
    ∀ c : KwCounter, ((ts.foldl (fun c' t => c'.incr t x) c)).score u
      = c.score u + (ts.count u : ℚ) * x := by
  induction ts with
  | nil => intro c; simp
  | cons t ts ih =>
    intro c
    rw [List.foldl_cons, ih, score_incr, List.count_cons]
    by_cases h : u = t
    · simp only [h, beq_self_eq_true, if_true]
      push_cast
      ring
    · have hne : (t == u) = false := by
        simp only [beq_eq_false_iff_ne, ne_eq]
        exact fun hh => h hh.symm
      simp [if_neg h, hne]

/-- Auxiliary: the aggregated score of any token is the sum over all rows of
(occurrences of the token among the row's surviving tokens) × (row
weight). -/
theorem score_keyword_scores (w : Nat → ℚ) (rows : List (String × Nat)) (u : String) :
    (keyword_scores w rows).score u =
      (rows.map (fun r => ((video_tokens r.1).count u : ℚ) * w r.2)).sum := by
  suffices hgen : ∀ c : KwCounter,
      ((rows.foldl (fun c r => (video_tokens r.1).foldl (fun c' t => c'.incr t (w r.2)) c) c)).score u =
        c.score u + (rows.map (fun r => ((video_tokens r.1).count u : ℚ) * w r.2)).sum by
    have h := hgen KwCounter.empty
    rw [keyword_scores, h]
    show (0 : ℚ) + _ = _
    rw [zero_add]
  induction rows with
  | nil => intro c; simp
  | cons r rows ih =>
    intro c
    rw [List.foldl_cons, ih, score_foldl, List.map_cons, List.sum_cons]
    ring

/-- Auxiliary: surviving tokens of the first scenario title. -/
theorem video_tokens_cooking_basics :
    video_tokens ("cooking basics") = [ "cooking", "basics" ] := by rfl

/-- Auxiliary: surviving tokens of the second scenario title. -/
theorem video_tokens_cooking_secrets :
    video_tokens ("cooking secrets") = [ "cooking", "secrets" ] := by rfl

/-- The two scenario rows: titles "cooking basics" (100 views) and
"cooking secrets" (10,000 views). -/
def cookingRows : List (String × Nat) :=
  [ ("cooking basics", 100), ("cooking secrets", 10000) ]

/-- Claim C2: the weighting of the keyword engine.  The source weights each
title's surviving tokens by the square root of the video's views, and
`sqrt 100 + sqrt 10000 = 10 + 100 = 110`; for any weight function agreeing
with the square root on the scenario's view counts, every token's
cumulative score is the weighted occurrence sum, "cooking" scores 110, and
the ranking places it above every token appearing only in the 100-view
title ("basics", scoring 10, ranks last behind "secrets" at 100). -/
theorem C2_weighted_scoring :
    Real.sqrt 100 = 10 ∧ Real.sqrt 10000 = 100 ∧
    (∀ (w : Nat → ℚ) (rows : List (String × Nat)) (t : String),
        (keyword_scores w rows).score t =
          (rows.map (fun r => ((video_tokens r.1).count t : ℚ) * w r.2)).sum) ∧
    (∀ w : Nat → ℚ, w 100 = 10 → w 10000 = 100 →
        (keyword_scores w cookingRows).score ("cooking") = 110 ∧
        most_common (keyword_scores w cookingRows) 30 =
          [ ("cooking", 110), ("secrets", 100), ("basics", 10) ]) := by
  refine ⟨?_, ?_, score_keyword_scores, ?_⟩
  · rw [show (100 : ℝ) = 10 ^ 2 by norm_num, Real.sqrt_sq (by norm_num : (0:ℝ) ≤ 10)]
  · rw [show (10000 : ℝ) = 100 ^ 2 by norm_num, Real.sqrt_sq (by norm_num : (0:ℝ) ≤ 100)]
  · intro w hw1 hw2
    have hsc : ∀ u : String, (keyword_scores w cookingRows).score u =
        ((video_tokens ("cooking basics")).count u : ℚ) * w 100 +
          ((video_tokens ("cooking secrets")).count u : ℚ) * w 10000 := by
      intro u
      rw [score_keyword_scores w cookingRows u]
      show ((video_tokens ("cooking basics")).count u : ℚ) * w 100 +
          (((video_tokens ("cooking secrets")).count u : ℚ) * w 10000 + 0) = _
      ring
    have hcooking : (keyword_scores w cookingRows).score ("cooking") = 110 := by
      rw [hsc, video_tokens_cooking_basics, video_tokens_cooking_secrets, hw1, hw2]
      norm_num [show List.count ("cooking") [ "cooking", "basics" ] = 1 from by decide,
        show List.count ("cooking") [ "cooking", "secrets" ] = 1 from by decide]
    have hbasics : (keyword_scores w cookingRows).score ("basics") = 10 := by
      rw [hsc, video_tokens_cooking_basics, video_tokens_cooking_secrets, hw1, hw2]
      norm_num [show List.count ("basics") [ "cooking", "basics" ] = 1 from by decide,
        show List.count ("basics") [ "cooking", "secrets" ] = 0 from by decide]
    have hsecrets : (keyword_scores w cookingRows).score ("secrets") = 100 := by
      rw [hsc, video_tokens_cooking_basics, video_tokens_cooking_secrets, hw1, hw2]
      norm_num [show List.count ("secrets") [ "cooking", "basics" ] = 0 from by decide,
        show List.count ("secrets") [ "cooking", "secrets" ] = 1 from by decide]
    have hkeys : (keyword_scores w cookingRows).keys = [ "cooking", "basics", "secrets" ] := by
      rw [keyword_scores_keys_eq]
      rfl
    have hitems : (keyword_scores w cookingRows).items =
        [ ("cooking", 110), ("basics", 10), ("secrets", 100) ] := by
      unfold KwCounter.items
      rw [hkeys, List.map_cons, List.map_cons, List.map_cons, List.map_nil,
        hcooking, hbasics, hsecrets]
    refine ⟨hcooking, ?_⟩
    rw [most_common, hitems]
    norm_num [sortDesc, insertDesc]

/-- Witness for `C2_weighted_scoring`'s scenario clause, at the weight
function taking 100 to 10 and everything else to 100. -/
theorem C2_weighted_scoring_witness :
    ((fun v : Nat => if v = 100 then (10 : ℚ) else 100) 100 = 10) ∧
    ((fun v : Nat => if v = 100 then (10 : ℚ) else 100) 10000 = 100) ∧
    ((keyword_scores (fun v : Nat => if v = 100 then (10 : ℚ) else 100) cookingRows).score
        ("cooking") = 110 ∧
      most_common (keyword_scores (fun v : Nat => if v = 100 then (10 : ℚ) else 100) cookingRows) 30 =
        [ ("cooking", 110), ("secrets", 100), ("basics", 10) ]) :=
  ⟨by norm_num, by norm_num,
    C2_weighted_scoring.2.2.2 (fun v : Nat => if v = 100 then (10 : ℚ) else 100)
      (by norm_num) (by norm_num)⟩

/-! ### C5: duration parsing -/

/-- Auxiliary: a digit character's code, for digits below 10. -/
theorem digitChar10_toNat (d : Nat) (hd : d < 10) : (digitChar10 d).toNat = 48 + d := by
  interval_cases d <;> rfl

/-- Auxiliary: digit characters pass the digit test. -/
theorem isDigitChar_digitChar10 (d : Nat) (hd : d < 10) :
    isDigitChar (digitChar10 d) = true := by
  interval_cases d <;> rfl

/-- Auxiliary: every character of a decimal representation is a digit. -/
theorem natRep_digit (n : Nat) : ∀ c ∈ natRep n, isDigitChar c = true := by
  unfold natRep
  split
  · intro c hc
    simp only [List.mem_singleton] at hc
    subst hc
    rfl
  · intro c hc
    simp only [List.mem_map, List.mem_reverse] at hc
    obtain ⟨d, hd, rfl⟩ := hc
    exact isDigitChar_digitChar10 d (Nat.digits_lt_base (by norm_num) hd)

/-- Auxiliary: a decimal representation is never empty. -/
theorem natRep_ne_nil (n : Nat) : natRep n ≠ [] := by
  unfold natRep
  split
  · simp
  · next h =>
    intro hc
    simp only [List.map_eq_nil_iff, List.reverse_eq_nil_iff] at hc
    exact (Nat.digits_ne_nil_iff_ne_zero.mpr h : Nat.digits 10 n ≠ []) hc

/-- Auxiliary: folding the digit-value accumulator over a mapped reversed
digit list computes positionally. -/
theorem digitsVal_aux (L : List Nat) (hL : ∀ d ∈ L, d < 10) : ∀ a : Nat,
    (L.reverse.map digitChar10).foldl (fun b c => 10 * b + (c.toNat - 48)) a =
      a * 10 ^ L.length + Nat.ofDigits 10 L := by
  induction L with
  | nil => intro a; simp
  | cons d L ih =>
    intro a
    have hd : d < 10 := hL d (List.mem_cons_self _ _)
    rw [List.reverse_cons, List.map_append, List.foldl_append,
      ih (fun x hx => hL x (List.mem_cons_of_mem _ hx))]
    simp only [List.map_cons, List.map_nil, List.foldl_cons, List.foldl_nil,
      digitChar10_toNat d hd, Nat.ofDigits_cons, List.length_cons]
    have hsub : 48 + d - 48 = d := by omega
    rw [hsub, pow_succ]
    ring

/-- Auxiliary: parsing a decimal representation recovers the number. -/
theorem digitsVal_natRep (n : Nat) : digitsVal (natRep n) = n := by
  unfold natRep
  split
  · next h => subst h; rfl
  · unfold digitsVal
    rw [digitsVal_aux (Nat.digits 10 n)
      (fun d hd => Nat.digits_lt_base (by norm_num) hd) 0]
    simp [Nat.ofDigits_digits]

/-- Auxiliary: the greedy digit step consumes exactly a digit block when the
next character is not a digit. -/
theorem takeDigits_append (ds rest : List Char) (hds : ∀ c ∈ ds, isDigitChar c = true)
    (hrest : ∀ c, rest.head? = some c → isDigitChar c = false) :
    takeDigits (ds ++ rest) = (ds, rest) := by
  induction ds with
  | nil =>
    simp only [List.nil_append]
    cases rest with
    | nil => rfl
    | cons c r =>
      have hc := hrest c rfl
      simp [takeDigits, hc]
  | cons d ds ih =>
    have hd := hds d (List.mem_cons_self _ _)
    simp only [List.cons_append, takeDigits, hd, if_true, List.append_eq]
    rw [ih (fun c hc => hds c (List.mem_cons_of_mem _ hc))]

/-- Auxiliary: an optional group hits when the stream starts with its digits
and its own unit letter. -/
theorem parsePart_hit (n : Nat) (u : Char) (rest : List Char) (hu : isDigitChar u = false) :
    parsePart (natRep n ++ u :: rest) u = (some n, rest) := by
  have ht : takeDigits (natRep n ++ u :: rest) = (natRep n, u :: rest) :=
    takeDigits_append _ _ (natRep_digit n) (by intro c hc; cases hc; exact hu)
  obtain ⟨d, ds, hds⟩ := List.exists_cons_of_ne_nil (natRep_ne_nil n)
  unfold parsePart
  rw [ht, hds]
  dsimp only
  rw [if_pos rfl, ← hds, digitsVal_natRep]

/-- Auxiliary: an optional group falls through, consuming nothing, when the
unit letter after the digits is a different one. -/
theorem parsePart_miss (n : Nat) (u u' : Char) (rest : List Char)
    (hu : isDigitChar u = false) (hne : ¬ u = u') :
    parsePart (natRep n ++ u :: rest) u' = (none, natRep n ++ u :: rest) := by
  have ht : takeDigits (natRep n ++ u :: rest) = (natRep n, u :: rest) :=
    takeDigits_append _ _ (natRep_digit n) (by intro c hc; cases hc; exact hu)
  obtain ⟨d, ds, hds⟩ := List.exists_cons_of_ne_nil (natRep_ne_nil n)
  unfold parsePart
  rw [ht, hds]
  dsimp only
  rw [if_neg hne, ← hds]

/-- Auxiliary: an optional group falls through on an exhausted stream. -/
theorem parsePart_nil (u : Char) : parsePart [] u = (none, []) := rfl

/-- Auxiliary: the parser evaluates any well-formed duration token
positionally. -/
theorem parse_durToken (oh om os : Option Nat) :
    parse_iso_duration (durToken oh om os) =
      3600 * oh.getD 0 + 60 * om.getD 0 + os.getD 0 := by
  have hH : isDigitChar 'H' = false := rfl
  have hM : isDigitChar 'M' = false := rfl
  have hS : isDigitChar 'S' = false := rfl
  have hMH : ¬ ('M' = 'H') := by decide
  have hSH : ¬ ('S' = 'H') := by decide
  have hSM : ¬ ('S' = 'M') := by decide
  unfold durToken parse_iso_duration
  rcases oh with _ | h <;> rcases om with _ | m <;> rcases os with _ | s <;>
    simp only [durPart, List.nil_append, List.append_nil, List.append_assoc,
      List.singleton_append, String.toList, parsePart_nil,
      parsePart_hit _ _ _ hH, parsePart_hit _ _ _ hM, parsePart_hit _ _ _ hS,
      parsePart_miss _ _ 'H' _ hM hMH, parsePart_miss _ _ 'H' _ hS hSH,
      parsePart_miss _ _ 'M' _ hS hSM, Option.getD_some, Option.getD_none] <;>
    ring

/-- Claim C5: a duration token `PT[h]H[m]M[s]S` with any subset of parts
present parses to `3600*H + 60*M + S`; a token with no parts ("PT"), the
empty token, and any token the anchored pattern cannot match yield 0 (the
parser is a total function, modelling "never raises"); in particular
"PT0M" yields 0 and "PT1H2M3S" yields 3723. -/
theorem C5_duration_parsing :
    (∀ oh om os : Option Nat,
        parse_iso_duration (durToken oh om os) =
          3600 * oh.getD 0 + 60 * om.getD 0 + os.getD 0) ∧
    parse_iso_duration ("") = 0 ∧
    (∀ s : String, s.toList.take 2 ≠ ['P', 'T'] → parse_iso_duration s = 0) ∧
    parse_iso_duration ("PT") = 0 ∧
    parse_iso_duration ("PT0M") = 0 ∧
    parse_iso_duration ("PT1H2M3S") = 3723 := by
  refine ⟨parse_durToken, rfl, ?_, rfl, by decide, by decide⟩
  intro s hs
  unfold parse_iso_duration
  split
  · rfl
  · next heq =>
    exfalso
    apply hs
    rw [heq]
    rfl
  · rfl

/-- Witness for `C5_duration_parsing`'s unmatchable-token clause at the
token "hello". -/
theorem C5_duration_parsing_witness :
    ("hello" : String).toList.take 2 ≠ ['P', 'T'] ∧ parse_iso_duration ("hello") = 0 :=
  ⟨by decide, C5_duration_parsing.2.2.1 ("hello") (by decide)⟩

end YTApp
